import Mathlib

/-!
Verification of the dentist appointment-booking UI (calendar scheduler,
new-appointment form, appointments dashboard page).

The TypeScript sources are shallowly embedded below:
* `calendar-scheduler.tsx` : hash-based availability helpers, date selection,
  month navigation and the 42-cell calendar grid;
* `NewAppointmentForm.tsx`  : effectful handlers modelled as pure functions
  from the form state and an API oracle to an outcome record
  (API calls made, toasts shown, callbacks fired);
* `AppointmentsPage.tsx`    : appointment loading, filtering/sorting, and the
  optimistic status change, modelled as event traces.

JavaScript `Date` values are embedded as calendar dates (year, month, day);
date arithmetic (`date-fns` `addDays`, `startOfMonth`, ...) is implemented on
that representation.  Timestamps used by the dashboard filters are embedded as
integer epoch milliseconds.  `String.prototype.localeCompare` is embedded as
lexicographic comparison of the lists of character codes.
-/

/-! ### Calendar dates (embedding of the JavaScript `Date` values used here) -/

/-- Gregorian leap-year test (what `Date` uses for month lengths). -/
def isLeap (y : Int) : Bool :=
  (y % 4 == 0 && y % 100 != 0) || (y % 400 == 0)

/-- Number of days in a month of a given year (months are 1-based). -/
def daysInMonth (y : Int) (m : Nat) : Nat :=
  if m = 2 then (if isLeap y then 29 else 28)
  else if m = 4 ∨ m = 6 ∨ m = 9 ∨ m = 11 then 30
  else 31

/-- A calendar date: the (year, month, day) triple of a JavaScript `Date`
(month 1-12, day 1-based). -/
structure Date where
  year : Int
  month : Nat
  day : Nat
deriving DecidableEq, Repr

/-- The date designates an actual calendar day. -/
def ValidDate (d : Date) : Prop :=
  1 ≤ d.month ∧ d.month ≤ 12 ∧ 1 ≤ d.day ∧ d.day ≤ daysInMonth d.year d.month

instance (d : Date) : Decidable (ValidDate d) := by
  unfold ValidDate; infer_instance

/-- The calendar day after `d`. -/
def nextDay (d : Date) : Date :=
  if d.day < daysInMonth d.year d.month then ⟨d.year, d.month, d.day + 1⟩
  else if d.month < 12 then ⟨d.year, d.month + 1, 1⟩
  else ⟨d.year + 1, 1, 1⟩

/-- The calendar day before `d`. -/
def prevDay (d : Date) : Date :=
  if 1 < d.day then ⟨d.year, d.month, d.day - 1⟩
  else if 1 < d.month then ⟨d.year, d.month - 1, daysInMonth d.year (d.month - 1)⟩
  else ⟨d.year - 1, 12, 31⟩

/-- `date-fns` `addDays`: shift a date by a (possibly negative) number of
days. -/
def addDays (d : Date) (n : Int) : Date :=
  if 0 ≤ n then nextDay^[n.toNat] d else prevDay^[(-n).toNat] d

/-- `date-fns` `startOfMonth`. -/
def startOfMonth (d : Date) : Date := ⟨d.year, d.month, 1⟩

/-- `date-fns` `endOfMonth`. -/
def endOfMonth (d : Date) : Date := ⟨d.year, d.month, daysInMonth d.year d.month⟩

/-- Days elapsed since 1970-01-01 (negative before the epoch); the standard
civil-calendar algorithm underlying JavaScript date arithmetic. -/
def daysFromCivil (d : Date) : Int :=
  let y : Int := if d.month ≤ 2 then d.year - 1 else d.year
  let era : Int := y.fdiv 400
  let yoe : Int := y - era * 400
  let mp : Int := ((d.month : Int) + 9) % 12
  let doy : Int := (153 * mp + 2) / 5 + (d.day : Int) - 1
  let doe : Int := yoe * 365 + yoe / 4 - yoe / 100 + doy
  era * 146097 + doe - 719468

/-- `date-fns` `getDay`: day of the week, 0 = Sunday .. 6 = Saturday
(1970-01-01 was a Thursday). -/
def getDay (d : Date) : Nat := ((daysFromCivil d + 4) % 7).toNat

/-! ### Availability helpers (`calendar-scheduler.tsx`, lines 18-40) -/

/-- Zero-pad a number to two digits, as in an ISO-8601 date string. -/
def pad2 (n : Nat) : String := if n < 10 then "0" ++ toString n else toString n

/-- Zero-pad a number to four digits, as in an ISO-8601 date string. -/
def pad4 (n : Nat) : String :=
  if n < 10 then "000" ++ toString n
  else if n < 100 then "00" ++ toString n
  else if n < 1000 then "0" ++ toString n
  else toString n

/-- `date.toISOString().split('T')[0]`: the `YYYY-MM-DD` day string of a date
(years 0-9999, the range where `toISOString` uses four digits). -/
def isoDateString (d : Date) : String :=
  pad4 d.year.toNat ++ "-" ++ pad2 d.month ++ "-" ++ pad2 d.day

/-- `str.split('').reduce((acc, c) => acc + c.charCodeAt(0), 0)`: the hash
used by the availability mock. -/
def charCodeHash (s : String) : Nat :=
  s.data.foldl (fun acc c => acc + c.toNat) 0

/-- Claim-side reading: the sum of the character codes of a string. -/
def charCodeSum (s : String) : Nat := (s.data.map Char.toNat).sum

/-- `getDateAvailability` (calendar-scheduler.tsx, lines 19-23). -/
def getDateAvailability (d : Date) : Bool :=
  charCodeHash (isoDateString d) % 5 != 0

/-- `getTimeSlotAvailability` (calendar-scheduler.tsx, lines 26-35). -/
def getTimeSlotAvailability (d : Date) (time : String) : Bool :=
  if !getDateAvailability d then false
  else charCodeHash (isoDateString d ++ "-" ++ time) % 2 == 0

/-- `hasAvailableSlots` (calendar-scheduler.tsx, lines 38-40). -/
def hasAvailableSlots (d : Date) (slots : List String) : Bool :=
  slots.any (fun slot => getTimeSlotAvailability d slot)

/-! ### The `CalendarScheduler` component (`calendar-scheduler.tsx`) -/

/-- The default `timeSlots` prop value. -/
def defaultTimeSlots : List String :=
  ["08:00", "09:00", "10:00", "11:00", "13:00", "14:00", "15:00", "16:00", "17:00"]

/-- `slotsToUse` (calendar-scheduler.tsx, lines 62-72): the provided slots if
nonempty, else the defaults. -/
def slotsToUse (timeSlots : List String) : List String :=
  if 0 < timeSlots.length then timeSlots else defaultTimeSlots

/-- The props of `CalendarScheduler` that affect its logic (the callbacks are
modelled as outputs of the step function). -/
structure SchedProps where
  timeSlots : List String
  disabledDates : Date → Bool

/-- The component state of `CalendarScheduler`. -/
structure SchedState where
  currentMonth : Date
  selectedDate : Option Date
  selectedTime : Option String
deriving DecidableEq, Repr

/-- `handleDateSelect` (calendar-scheduler.tsx, lines 74-81).  Returns the new
state and `some d` when `onDateChange` is invoked with `d`, `none` when the
callback is not invoked. -/
def handleDateSelect (props : SchedProps) (s : SchedState) (d : Date) :
    SchedState × Option Date :=
  if props.disabledDates d then (s, none)
  else if !hasAvailableSlots d (slotsToUse props.timeSlots) then (s, none)
  else ({ s with selectedDate := some d, selectedTime := none }, some d)

/-- `handlePrevMonth` (calendar-scheduler.tsx, lines 83-85): subtract 32
days. -/
def handlePrevMonth (m : Date) : Date := addDays m (-32)

/-- `handleNextMonth` (calendar-scheduler.tsx, lines 87-89): add 32 days. -/
def handleNextMonth (m : Date) : Date := addDays m 32

/-- `firstDayOfWeek` (calendar-scheduler.tsx, line 97). -/
def firstDayOfWeek (c : Date) : Nat := getDay (startOfMonth c)

/-- `calendarDays` (line 94): `eachDayOfInterval` from `startOfMonth` to
`endOfMonth`, i.e. one entry per day of the month. -/
def calendarDays (c : Date) : List Date :=
  (List.range (daysInMonth c.year c.month)).map
    (fun i : Nat => addDays (startOfMonth c) (i : Int))

/-- `prevMonthDays` (line 98): the `firstDayOfWeek` days before the first of
the month. -/
def prevMonthDays (c : Date) : List Date :=
  (List.range (firstDayOfWeek c)).map
    (fun i : Nat => addDays (startOfMonth c) (-((firstDayOfWeek c : Int) - (i : Int))))

/-- `remainingDays` (line 102): `42 - allDays.length`. -/
def remainingDays (c : Date) : Nat :=
  42 - (firstDayOfWeek c + daysInMonth c.year c.month)

/-- `nextMonthDays` (line 103): days after the end of the month completing the
grid. -/
def nextMonthDays (c : Date) : List Date :=
  (List.range (remainingDays c)).map
    (fun i : Nat => addDays (endOfMonth c) ((i : Int) + 1))

/-- `gridDays` (line 104): the full 6-week calendar grid. -/
def gridDays (c : Date) : List Date :=
  prevMonthDays c ++ calendarDays c ++ nextMonthDays c

/-- User interactions of `CalendarScheduler`. -/
inductive SchedEvent where
  | selectDate (d : Date)
  | selectTime (t : String)
  | prevMonth
  | nextMonth
  | reset (now : Date)
  | confirm
deriving DecidableEq, Repr

/-- Callback invocations of `CalendarScheduler`. -/
inductive SchedOutput where
  | dateChanged (d : Date)
  | confirmed (date : Option Date) (time : Option String)
deriving DecidableEq, Repr

/-- One step of the `CalendarScheduler` component: handles a user event and
returns the new state together with the callbacks fired.  The confirm button
(lines 234-240) is disabled unless both a date and a time are selected; a
time-slot button (lines 196-213) only sets the time when its slot is
available; the slot panel only exists when a date is selected (line 180). -/
def schedStep (props : SchedProps) (s : SchedState) :
    SchedEvent → SchedState × List SchedOutput
  | SchedEvent.selectDate d =>
      match handleDateSelect props s d with
      | (s', some d') => (s', [SchedOutput.dateChanged d'])
      | (s', none) => (s', [])
  | SchedEvent.selectTime t =>
      match s.selectedDate with
      | some d =>
          if t ∈ slotsToUse props.timeSlots ∧ getTimeSlotAvailability d t then
            ({ s with selectedTime := some t }, [])
          else (s, [])
      | none => (s, [])
  | SchedEvent.prevMonth =>
      ({ s with currentMonth := handlePrevMonth s.currentMonth }, [])
  | SchedEvent.nextMonth =>
      ({ s with currentMonth := handleNextMonth s.currentMonth }, [])
  | SchedEvent.reset now =>
      ({ currentMonth := now, selectedDate := none, selectedTime := none }, [])
  | SchedEvent.confirm =>
      if s.selectedDate.isSome && s.selectedTime.isSome then
        (s, [SchedOutput.confirmed s.selectedDate s.selectedTime])
      else (s, [])

/-! ### Shared data records and API modelling -/

/-- A transient user notification (`toast` from `sonner`). -/
inductive Toast where
  | success (msg : String)
  | error (msg : String)
deriving DecidableEq, Repr

/-- The API-client operations invoked by this code. -/
inductive ApiCall where
  | getDentist (dentistId : String)
  | getAvailableSlots (dentistId : String) (date : Date)
  | getPatients (dentistId : String)
  | createPatient (name phone : String)
  | createAppointment (patientId serviceId : String)
  | getAppointments (dentistId : String)
  | updateAppointment (id status : String)
deriving DecidableEq, Repr

/-- An opaque error thrown by the API client. -/
inductive ApiError where
  | failure
deriving DecidableEq, Repr

/-- A patient record as used by this code. -/
structure Patient where
  id : String
  name : String
  phone : String
deriving DecidableEq, Repr

/-- A service offered by a dentist. -/
structure Service where
  id : String
  name : String
deriving DecidableEq, Repr

/-- A dentist record as used by this code. -/
structure Dentist where
  id : String
  services : List Service
deriving DecidableEq, Repr

/-- An appointment record as used by the dashboard; the `date` field is
embedded as its epoch-millisecond timestamp (`new Date(apt.date).getTime()`).
-/
structure Appointment where
  id : String
  patientId : String
  serviceId : String
  date : Int
  time : String
  status : String
  notes : String
deriving DecidableEq, Repr

/-! ### `NewAppointmentForm.tsx` -/

/-- The form state of `NewAppointmentForm`. -/
structure FormState where
  date : Option Date
  time : String
  serviceId : String
  patientName : String
  patientPhone : String
  patientEmail : String
  notes : String
  isLoading : Bool
deriving DecidableEq, Repr

/-- Oracle for the API calls `handleSubmit` may perform: the value each call
would resolve to, or the error it would reject with.  `createPatient` may
resolve to a missing record (`if (!patient)` in the source). -/
structure SubmitApi where
  getPatients : Except ApiError (List Patient)
  createPatient : Except ApiError (Option Patient)
  createAppointment : Except ApiError Unit

/-- The observable outcome of a `handleSubmit` run. -/
structure SubmitOutcome where
  calls : List ApiCall
  toasts : List Toast
  onSuccessCalled : Bool
  finalIsLoading : Bool
deriving DecidableEq, Repr

/-- `handleSubmit` (NewAppointmentForm.tsx, lines 66-94).  A missing/empty
required field short-circuits with an error toast; otherwise the patient is
looked up by phone, created if absent, and the appointment is created; any
thrown error is caught and turned into an error toast; `finally` clears
`isLoading`. -/
def handleSubmit (dentistId : String) (form : FormState) (api : SubmitApi) :
    SubmitOutcome :=
  if form.date = none ∨ form.time = "" ∨ form.serviceId = "" ∨
      form.patientName = "" ∨ form.patientPhone = "" then
    { calls := [], toasts := [Toast.error "Veuillez remplir tous les champs obligatoires"],
      onSuccessCalled := false, finalIsLoading := form.isLoading }
  else
    match api.getPatients with
    | Except.error _ =>
        { calls := [ApiCall.getPatients dentistId],
          toasts := [Toast.error "Erreur lors de la création du rendez-vous"],
          onSuccessCalled := false, finalIsLoading := false }
    | Except.ok patients =>
        match patients.find? (fun p => p.phone == form.patientPhone) with
        | some patient =>
            match api.createAppointment with
            | Except.ok _ =>
                { calls := [ApiCall.getPatients dentistId,
                            ApiCall.createAppointment patient.id form.serviceId],
                  toasts := [Toast.success "Rendez-vous créé avec succès"],
                  onSuccessCalled := true, finalIsLoading := false }
            | Except.error _ =>
                { calls := [ApiCall.getPatients dentistId,
                            ApiCall.createAppointment patient.id form.serviceId],
                  toasts := [Toast.error "Erreur lors de la création du rendez-vous"],
                  onSuccessCalled := false, finalIsLoading := false }
        | none =>
            match api.createPatient with
            | Except.error _ =>
                { calls := [ApiCall.getPatients dentistId,
                            ApiCall.createPatient form.patientName form.patientPhone],
                  toasts := [Toast.error "Erreur lors de la création du rendez-vous"],
                  onSuccessCalled := false, finalIsLoading := false }
            | Except.ok none =>
                { calls := [ApiCall.getPatients dentistId,
                            ApiCall.createPatient form.patientName form.patientPhone],
                  toasts := [Toast.error "Erreur lors de la création du patient"],
                  onSuccessCalled := false, finalIsLoading := false }
            | Except.ok (some patient) =>
                match api.createAppointment with
                | Except.ok _ =>
                    { calls := [ApiCall.getPatients dentistId,
                                ApiCall.createPatient form.patientName form.patientPhone,
                                ApiCall.createAppointment patient.id form.serviceId],
                      toasts := [Toast.success "Rendez-vous créé avec succès"],
                      onSuccessCalled := true, finalIsLoading := false }
                | Except.error _ =>
                    { calls := [ApiCall.getPatients dentistId,
                                ApiCall.createPatient form.patientName form.patientPhone,
                                ApiCall.createAppointment patient.id form.serviceId],
                      toasts := [Toast.error "Erreur lors de la création du rendez-vous"],
                      onSuccessCalled := false, finalIsLoading := false }

/-- The `getDentist` effect (NewAppointmentForm.tsx, lines 38-48): on success
the dentist is stored; a thrown error is caught and ignored (`// ignore`),
with no toast.  Returns the stored dentist and the toasts shown. -/
def dentistLoadEffect (result : Except ApiError Dentist) :
    Option Dentist × List Toast :=
  match result with
  | Except.ok d => (some d, [])
  | Except.error _ => (none, [])

/-- Outcome of a `loadAvailableSlots` run: the value `availableSlots` is set
to (`none` when the guard returns early), whether `setTime('')` ran, the
toasts shown, and the number of `console.error` logs. -/
structure SlotsOutcome where
  availableSlots : Option (List String)
  timeReset : Bool
  toasts : List Toast
  consoleErrors : Nat
deriving DecidableEq, Repr

/-- `loadAvailableSlots` (NewAppointmentForm.tsx, lines 54-64): guarded on
`date` and `dentist`; on success stores `slots || []` and clears the time; a
thrown error is caught, logged to the console, and the slots are cleared — no
toast.  The API may resolve to a missing list (`slots || []`). -/
def loadAvailableSlots (date : Option Date) (dentist : Option Dentist)
    (result : Except ApiError (Option (List String))) : SlotsOutcome :=
  match date, dentist with
  | some _, some _ =>
      match result with
      | Except.ok slots =>
          { availableSlots := some (slots.getD []), timeReset := true,
            toasts := [], consoleErrors := 0 }
      | Except.error _ =>
          { availableSlots := some [], timeReset := false,
            toasts := [], consoleErrors := 1 }
  | _, _ => { availableSlots := none, timeReset := false, toasts := [], consoleErrors := 0 }

/-! ### `AppointmentsPage.tsx` -/

/-- The filter values of the dashboard (`FilterType`, line 39). -/
inductive FilterType where
  | all
  | today
  | upcoming
  | past
deriving DecidableEq, Repr

/-- Day index of an epoch-millisecond timestamp (86400000 ms per day). -/
def dayIndex (t : Int) : Int := t.fdiv 86400000

/-- `date-fns` `isToday`: the timestamp falls on the same day as `now`. -/
def isToday (now t : Int) : Bool := dayIndex t == dayIndex now

/-- `date-fns` `isFuture`: the timestamp is strictly after `now`. -/
def isFuture (now t : Int) : Bool := decide (now < t)

/-- `date-fns` `isPast`: the timestamp is strictly before `now`. -/
def isPast (now t : Int) : Bool := decide (t < now)

/-- Lexicographic order on lists of character codes. -/
def codesLe : List Nat → List Nat → Bool
  | [], _ => true
  | _ :: _, [] => false
  | a :: as, b :: bs =>
      if a < b then true else if b < a then false else codesLe as bs

/-- `a.localeCompare(b) <= 0`, embedded as lexicographic comparison of
character codes. -/
def strLe (a b : String) : Bool :=
  codesLe (a.data.map Char.toNat) (b.data.map Char.toNat)

/-- The sort comparator of `applyFilter` (AppointmentsPage.tsx, lines 92-97),
read as a `le` relation: earlier date first, ties broken by comparing the
`time` strings. -/
def aptLe (a b : Appointment) : Bool :=
  if a.date = b.date then strLe a.time b.time else decide (a.date < b.date)

/-- The filter predicate each `FilterType` selects ('all' keeps everything).
-/
def filterPred (filter : FilterType) (now : Int) (a : Appointment) : Bool :=
  match filter with
  | FilterType.today => isToday now a.date
  | FilterType.upcoming => isFuture now a.date
  | FilterType.past => isPast now a.date
  | FilterType.all => true

/-- `applyFilter` (AppointmentsPage.tsx, lines 76-100): filter the
appointments by the selected filter, then sort by date with ties broken by
`time.localeCompare`.  The JavaScript sort is embedded as a stable merge sort
with the comparator read as a `le` relation. -/
def applyFilter (now : Int) (filter : FilterType) (appointments : List Appointment) :
    List Appointment :=
  let filtered : List Appointment :=
    match filter with
    | FilterType.today => appointments.filter (fun a => isToday now a.date)
    | FilterType.upcoming => appointments.filter (fun a => isFuture now a.date)
    | FilterType.past => appointments.filter (fun a => isPast now a.date)
    | FilterType.all => appointments
  filtered.mergeSort aptLe

/-- Observable actions of the dashboard page, in program order. -/
inductive PageEvent where
  | setAppointments (l : List Appointment)
  | setFilteredAppointments (l : List Appointment)
  | setPatients (l : List Patient)
  | setIsLoading (b : Bool)
  | call (c : ApiCall)
  | toastSuccess (msg : String)
  | toastError (msg : String)
deriving DecidableEq, Repr

/-- `loadAppointments` (AppointmentsPage.tsx, lines 60-74) as an event trace:
guarded on `dentist`; fetches appointments and patients together; on success
stores both, on a thrown error shows an error toast; `finally` clears
`isLoading`. -/
def loadAppointmentsTrace (dentist : Option Dentist)
    (result : Except ApiError (List Appointment × List Patient)) : List PageEvent :=
  match dentist with
  | none => []
  | some d =>
      [PageEvent.call (ApiCall.getAppointments d.id),
       PageEvent.call (ApiCall.getPatients d.id)] ++
      (match result with
       | Except.ok (appts, pats) =>
           [PageEvent.setAppointments appts, PageEvent.setPatients pats]
       | Except.error _ =>
           [PageEvent.toastError "Erreur lors du chargement des rendez-vous"]) ++
      [PageEvent.setIsLoading false]

/-- The optimistic rewrite of `handleStatusChange` (lines 126-131): replace
the status of every appointment whose id matches. -/
def optimisticStatus (id newStatus : String) (l : List Appointment) :
    List Appointment :=
  l.map (fun apt => if apt.id = id then { apt with status := newStatus } else apt)

/-- `handleStatusChange` (AppointmentsPage.tsx, lines 122-143) as an event
trace: guarded on `dentist`; optimistically rewrites the status in both
`appointments` and `filteredAppointments`, then calls `updateAppointment`; on
success shows a success toast and reloads; on a thrown error reloads and shows
an error toast. -/
def handleStatusChangeTrace (dentist : Option Dentist)
    (appointments filteredAppointments : List Appointment) (id newStatus : String)
    (updateResult : Except ApiError Unit)
    (reloadResult : Except ApiError (List Appointment × List Patient)) :
    List PageEvent :=
  match dentist with
  | none => []
  | some d =>
      [PageEvent.setAppointments (optimisticStatus id newStatus appointments),
       PageEvent.setFilteredAppointments (optimisticStatus id newStatus filteredAppointments),
       PageEvent.call (ApiCall.updateAppointment id newStatus)] ++
      match updateResult with
      | Except.ok _ =>
          [PageEvent.toastSuccess "Statut mis à jour"] ++
          loadAppointmentsTrace (some d) reloadResult
      | Except.error _ =>
          loadAppointmentsTrace (some d) reloadResult ++
          [PageEvent.toastError "Erreur lors de la mise à jour"]

/-- Claim-side description of the optimistic rewrite: same length, and
position-wise only the status field of matching appointments changes. -/
def StatusRewritten (id newStatus : String) (before afterL : List Appointment) : Prop :=
  afterL.length = before.length ∧
  ∀ i (h : i < before.length) (h' : i < afterL.length),
    ((before.get ⟨i, h⟩).id = id →
      afterL.get ⟨i, h'⟩ = { before.get ⟨i, h⟩ with status := newStatus }) ∧
    ((before.get ⟨i, h⟩).id ≠ id → afterL.get ⟨i, h'⟩ = before.get ⟨i, h⟩)

/-! ### Helper lemmas -/

theorem foldl_addCharCode (l : List Char) (acc : Nat) :
    l.foldl (fun a c => a + c.toNat) acc = acc + (l.map Char.toNat).sum := by
  induction l generalizing acc with
  | nil => simp
  | cons c cs ih => simp [ih, Nat.add_assoc]

theorem charCodeHash_eq_sum (s : String) : charCodeHash s = charCodeSum s := by
  simp [charCodeHash, charCodeSum, foldl_addCharCode]

/-! ### Claim C1 -/

/-- Claim C1: `getDateAvailability` is a deterministic function of the date's
ISO-8601 day string, returning `true` iff the sum of its character codes is
not divisible by 5, so a day is fully booked exactly when that hash is a
multiple of 5. -/
theorem c1_getDateAvailability_hash :
    (∀ d₁ d₂ : Date, isoDateString d₁ = isoDateString d₂ →
        getDateAvailability d₁ = getDateAvailability d₂) ∧
    (∀ d : Date,
        (getDateAvailability d = true ↔ charCodeSum (isoDateString d) % 5 ≠ 0) ∧
        (getDateAvailability d = false ↔ charCodeSum (isoDateString d) % 5 = 0)) := by
  refine ⟨?_, ?_⟩
  · intro d₁ d₂ h
    simp [getDateAvailability, h]
  · intro d
    constructor
    · simp [getDateAvailability, charCodeHash_eq_sum]
    · simp [getDateAvailability, charCodeHash_eq_sum]

/-- Witness for C1 at concrete dates. -/
theorem c1_witness :
    getDateAvailability ⟨2025, 10, 6⟩ = getDateAvailability ⟨2025, 10, 6⟩ ∧
    (getDateAvailability ⟨2025, 10, 7⟩ = true ↔
      charCodeSum (isoDateString ⟨2025, 10, 7⟩) % 5 ≠ 0) :=
  ⟨c1_getDateAvailability_hash.1 ⟨2025, 10, 6⟩ ⟨2025, 10, 6⟩ rfl,
   (c1_getDateAvailability_hash.2 ⟨2025, 10, 7⟩).1⟩

/-! ### Claim C2 -/

/-- Claim C2: a slot on a fully booked day is never available; on an
available day a slot is available iff the character-code sum of
`YYYY-MM-DD-<time>` is even; and `hasAvailableSlots` holds exactly when some
slot in the list is available. -/
theorem c2_timeSlot_availability :
    (∀ (d : Date) (t : String), getDateAvailability d = false →
        getTimeSlotAvailability d t = false) ∧
    (∀ (d : Date) (t : String), getDateAvailability d = true →
        (getTimeSlotAvailability d t = true ↔
          charCodeSum (isoDateString d ++ "-" ++ t) % 2 = 0)) ∧
    (∀ (d : Date) (slots : List String),
        hasAvailableSlots d slots = true ↔
          ∃ t ∈ slots, getTimeSlotAvailability d t = true) := by
  refine ⟨?_, ?_, ?_⟩
  · intro d t h
    simp [getTimeSlotAvailability, h]
  · intro d t h
    simp [getTimeSlotAvailability, h, charCodeHash_eq_sum]
  · intro d slots
    simp [hasAvailableSlots, List.any_eq_true]

/-- Witness for C2 at concrete inputs (2025-10-06 is fully booked, 2025-10-07
is not). -/
theorem c2_witness :
    getTimeSlotAvailability ⟨2025, 10, 6⟩ "08:00" = false ∧
    (getTimeSlotAvailability ⟨2025, 10, 7⟩ "08:00" = true ↔
      charCodeSum (isoDateString ⟨2025, 10, 7⟩ ++ "-" ++ "08:00") % 2 = 0) ∧
    (hasAvailableSlots ⟨2025, 10, 7⟩ defaultTimeSlots = true ↔
      ∃ t ∈ defaultTimeSlots, getTimeSlotAvailability ⟨2025, 10, 7⟩ t = true) :=
  ⟨c2_timeSlot_availability.1 ⟨2025, 10, 6⟩ "08:00" (by decide),
   c2_timeSlot_availability.2.1 ⟨2025, 10, 7⟩ "08:00" (by decide),
   c2_timeSlot_availability.2.2 ⟨2025, 10, 7⟩ defaultTimeSlots⟩

/-! ### Claim C3 -/

/-- Claim C3: selecting a disabled date (externally disabled, or without any
available slot) leaves the state unchanged and fires no callback; selecting
any other date stores it, clears the selected time, and fires `onDateChange`
with that date. -/
theorem c3_handleDateSelect :
    ∀ (props : SchedProps) (s : SchedState) (d : Date),
      ((props.disabledDates d = true ∨
          hasAvailableSlots d (slotsToUse props.timeSlots) = false) →
        handleDateSelect props s d = (s, none)) ∧
      (props.disabledDates d = false →
        hasAvailableSlots d (slotsToUse props.timeSlots) = true →
        handleDateSelect props s d =
          ({ s with selectedDate := some d, selectedTime := none }, some d)) := by
  intro props s d
  constructor
  · rintro (h | h)
    · simp [handleDateSelect, h]
    · by_cases hd : props.disabledDates d <;> simp [handleDateSelect, hd, h]
  · intro h1 h2
    simp [handleDateSelect, h1, h2]

/-- Witness for C3: a fully booked day is rejected, a day with slots is
selected. -/
theorem c3_witness :
    handleDateSelect ⟨[], fun _ => false⟩ ⟨⟨2025, 10, 1⟩, none, none⟩ ⟨2025, 10, 6⟩ =
      (⟨⟨2025, 10, 1⟩, none, none⟩, none) ∧
    handleDateSelect ⟨[], fun _ => false⟩ ⟨⟨2025, 10, 1⟩, none, none⟩ ⟨2025, 10, 7⟩ =
      (⟨⟨2025, 10, 1⟩, some ⟨2025, 10, 7⟩, none⟩, some ⟨2025, 10, 7⟩) :=
  ⟨(c3_handleDateSelect ⟨[], fun _ => false⟩ ⟨⟨2025, 10, 1⟩, none, none⟩ ⟨2025, 10, 6⟩).1
      (Or.inr (by decide)),
   (c3_handleDateSelect ⟨[], fun _ => false⟩ ⟨⟨2025, 10, 1⟩, none, none⟩ ⟨2025, 10, 7⟩).2
      rfl (by decide)⟩

/-! ### Claim C9 (code bug: month navigation can skip a month) -/

set_option maxRecDepth 4000 in
/-- Claim C9 evaluated at the failing input: from `currentMonth` 2025-01-31,
`handleNextMonth` (add 32 days) lands on 2025-03-04, so the displayed month
jumps from January to March, skipping February; symmetrically
`handlePrevMonth` from 2025-03-01 lands in January. -/
theorem c9_month_navigation_skips_february :
    handleNextMonth ⟨2025, 1, 31⟩ = ⟨2025, 3, 4⟩ ∧
    startOfMonth (handleNextMonth ⟨2025, 1, 31⟩) = ⟨2025, 3, 1⟩ ∧
    handlePrevMonth ⟨2025, 3, 1⟩ = ⟨2025, 1, 28⟩ ∧
    startOfMonth (handlePrevMonth ⟨2025, 3, 1⟩) = ⟨2025, 1, 1⟩ := by
  decide

/-! ### Claim C10 -/

/-- Claim C10: `onConfirm` never fires with a partial selection — in every
state, a confirm event only emits a `confirmed` output when both
`selectedDate` and `selectedTime` are set, and the emitted payload carries
them. -/
theorem c10_confirm_requires_selection :
    ∀ (props : SchedProps) (s : SchedState) (e : SchedEvent)
      (d : Option Date) (t : Option String),
      SchedOutput.confirmed d t ∈ (schedStep props s e).2 →
      d.isSome = true ∧ t.isSome = true := by
  intro props s e d t h
  cases e with
  | selectDate d0 =>
      simp only [schedStep] at h
      cases hds : handleDateSelect props s d0 with
      | mk s1 cb =>
          rw [hds] at h
          cases cb <;> simp at h
  | selectTime t0 =>
      rcases s with ⟨cm, sd, st⟩
      cases sd with
      | none => simp [schedStep] at h
      | some d0 =>
          simp only [schedStep] at h
          split at h <;> simp at h
  | prevMonth => simp [schedStep] at h
  | nextMonth => simp [schedStep] at h
  | reset now => simp [schedStep] at h
  | confirm =>
      simp only [schedStep] at h
      split at h
      · next hc =>
          simp only [List.mem_singleton] at h
          cases h
          simpa [Bool.and_eq_true] using hc
      · simp at h

/-- Witness for C10: confirming with both fields set emits a fully defined
payload. -/
theorem c10_witness :
    (some (⟨2025, 10, 7⟩ : Date)).isSome = true ∧
    (some ("08:00" : String)).isSome = true :=
  c10_confirm_requires_selection ⟨[], fun _ => false⟩
    ⟨⟨2025, 10, 1⟩, some ⟨2025, 10, 7⟩, some "08:00"⟩ SchedEvent.confirm
    (some ⟨2025, 10, 7⟩) (some "08:00") (by decide)

/-! ### Claim C4 -/

/-- Claim C4: whenever any of date, time, serviceId, patientName or
patientPhone is missing or empty, `handleSubmit` shows an error toast and
returns without making any API call, leaving the form state (including
`isLoading`) unchanged. -/
theorem c4_required_fields_guard :
    ∀ (dentistId : String) (form : FormState) (api : SubmitApi),
      (form.date = none ∨ form.time = "" ∨ form.serviceId = "" ∨
        form.patientName = "" ∨ form.patientPhone = "") →
      handleSubmit dentistId form api =
        { calls := [],
          toasts := [Toast.error "Veuillez remplir tous les champs obligatoires"],
          onSuccessCalled := false, finalIsLoading := form.isLoading } := by
  intro dentistId form api h
  unfold handleSubmit
  rw [if_pos h]

/-- Witness for C4: a form with an empty time field is rejected without API
calls. -/
theorem c4_witness :
    handleSubmit "d1"
      { date := some ⟨2025, 10, 7⟩, time := "", serviceId := "s1",
        patientName := "Alice", patientPhone := "0600000000",
        patientEmail := "", notes := "", isLoading := false }
      { getPatients := Except.ok [], createPatient := Except.ok none,
        createAppointment := Except.ok () } =
      { calls := [],
        toasts := [Toast.error "Veuillez remplir tous les champs obligatoires"],
        onSuccessCalled := false, finalIsLoading := false } :=
  c4_required_fields_guard "d1"
    { date := some ⟨2025, 10, 7⟩, time := "", serviceId := "s1",
      patientName := "Alice", patientPhone := "0600000000",
      patientEmail := "", notes := "", isLoading := false }
    { getPatients := Except.ok [], createPatient := Except.ok none,
      createAppointment := Except.ok () }
    (by decide)

/-! ### Claim C5 (corrected: two call sites swallow errors silently) -/

/-- Counterexample to C5 as stated: an API error in `loadAvailableSlots` is
caught but produces no toast (console log only), and the `getDentist` effect
ignores its error entirely, so not every caught API error is surfaced as a
user-visible notification. -/
theorem c5_counterexample :
    (loadAvailableSlots (some ⟨2025, 10, 7⟩) (some { id := "d1", services := [] })
        (Except.error ApiError.failure)).toasts = [] ∧
    (loadAvailableSlots (some ⟨2025, 10, 7⟩) (some { id := "d1", services := [] })
        (Except.error ApiError.failure)).consoleErrors = 1 ∧
    (dentistLoadEffect (Except.error ApiError.failure)).2 = [] := by
  exact ⟨rfl, rfl, rfl⟩

/-- Claim C5 as amended: every API error is caught at its call site;
`loadAppointments`, `handleStatusChange` and `handleSubmit` surface an error
toast, while the `getDentist` effect ignores its error and
`loadAvailableSlots` only logs to the console — neither shows a toast. -/
theorem c5_amended_error_surfacing :
    (∀ e, (dentistLoadEffect (Except.error e)).2 = []) ∧
    (∀ (d : Date) (dent : Dentist) (e : ApiError),
        (loadAvailableSlots (some d) (some dent) (Except.error e)).toasts = [] ∧
        (loadAvailableSlots (some d) (some dent) (Except.error e)).consoleErrors = 1) ∧
    (∀ (dent : Dentist) (e : ApiError),
        PageEvent.toastError "Erreur lors du chargement des rendez-vous" ∈
          loadAppointmentsTrace (some dent) (Except.error e)) ∧
    (∀ (dent : Dentist) (a f : List Appointment) (id st : String)
        (e : ApiError) (r : Except ApiError (List Appointment × List Patient)),
        PageEvent.toastError "Erreur lors de la mise à jour" ∈
          handleStatusChangeTrace (some dent) a f id st (Except.error e) r) ∧
    (∀ (dentistId : String) (form : FormState) (api : SubmitApi) (e : ApiError),
        ¬(form.date = none ∨ form.time = "" ∨ form.serviceId = "" ∨
          form.patientName = "" ∨ form.patientPhone = "") →
        api.getPatients = Except.error e →
        Toast.error "Erreur lors de la création du rendez-vous" ∈
          (handleSubmit dentistId form api).toasts) ∧
    (∀ (dentistId : String) (form : FormState) (api : SubmitApi)
        (patients : List Patient) (e : ApiError),
        ¬(form.date = none ∨ form.time = "" ∨ form.serviceId = "" ∨
          form.patientName = "" ∨ form.patientPhone = "") →
        api.getPatients = Except.ok patients →
        patients.find? (fun p => p.phone == form.patientPhone) = none →
        api.createPatient = Except.error e →
        Toast.error "Erreur lors de la création du rendez-vous" ∈
          (handleSubmit dentistId form api).toasts) ∧
    (∀ (dentistId : String) (form : FormState) (api : SubmitApi)
        (patients : List Patient) (patient : Patient) (e : ApiError),
        ¬(form.date = none ∨ form.time = "" ∨ form.serviceId = "" ∨
          form.patientName = "" ∨ form.patientPhone = "") →
        api.getPatients = Except.ok patients →
        patients.find? (fun p => p.phone == form.patientPhone) = some patient →
        api.createAppointment = Except.error e →
        Toast.error "Erreur lors de la création du rendez-vous" ∈
          (handleSubmit dentistId form api).toasts) ∧
    (∀ (dentistId : String) (form : FormState) (api : SubmitApi)
        (patients : List Patient) (patient : Patient) (e : ApiError),
        ¬(form.date = none ∨ form.time = "" ∨ form.serviceId = "" ∨
          form.patientName = "" ∨ form.patientPhone = "") →
        api.getPatients = Except.ok patients →
        patients.find? (fun p => p.phone == form.patientPhone) = none →
        api.createPatient = Except.ok (some patient) →
        api.createAppointment = Except.error e →
        Toast.error "Erreur lors de la création du rendez-vous" ∈
          (handleSubmit dentistId form api).toasts) := by
  refine ⟨?_, ?_, ?_, ?_, ?_, ?_, ?_, ?_⟩
  · intro e; rfl
  · intro d dent e; exact ⟨rfl, rfl⟩
  · intro dent e; simp [loadAppointmentsTrace]
  · intro dent a f id st e r
    cases r with
    | ok v => cases v with
        | mk appts pats => simp [handleStatusChangeTrace, loadAppointmentsTrace]
    | error e2 => simp [handleStatusChangeTrace, loadAppointmentsTrace]
  · intro dentistId form api e hvalid hgp
    unfold handleSubmit
    rw [if_neg hvalid, hgp]
    simp
  · intro dentistId form api patients e hvalid hgp hfind hcp
    unfold handleSubmit
    rw [if_neg hvalid, hgp]
    simp [hfind, hcp]
  · intro dentistId form api patients patient e hvalid hgp hfind hca
    unfold handleSubmit
    rw [if_neg hvalid, hgp]
    simp [hfind, hca]
  · intro dentistId form api patients patient e hvalid hgp hfind hcp hca
    unfold handleSubmit
    rw [if_neg hvalid, hgp]
    simp [hfind, hcp, hca]

/-- Witness for C5 (amended) at concrete inputs, covering a failing
`getPatients`, a failing `createPatient`, and a failing `createAppointment`
both with a found and with a freshly created patient. -/
theorem c5_amended_witness :
    (dentistLoadEffect (Except.error ApiError.failure)).2 = [] ∧
    (loadAvailableSlots (some ⟨2025, 10, 7⟩) (some { id := "d1", services := [] })
        (Except.error ApiError.failure)).toasts = [] ∧
    PageEvent.toastError "Erreur lors du chargement des rendez-vous" ∈
      loadAppointmentsTrace (some { id := "d1", services := [] })
        (Except.error ApiError.failure) ∧
    Toast.error "Erreur lors de la création du rendez-vous" ∈
      (handleSubmit "d1"
        { date := some ⟨2025, 10, 7⟩, time := "08:00", serviceId := "s1",
          patientName := "Alice", patientPhone := "0600000000",
          patientEmail := "", notes := "", isLoading := false }
        { getPatients := Except.error ApiError.failure,
          createPatient := Except.ok none,
          createAppointment := Except.ok () }).toasts ∧
    Toast.error "Erreur lors de la création du rendez-vous" ∈
      (handleSubmit "d1"
        { date := some ⟨2025, 10, 7⟩, time := "08:00", serviceId := "s1",
          patientName := "Alice", patientPhone := "0600000000",
          patientEmail := "", notes := "", isLoading := false }
        { getPatients := Except.ok [],
          createPatient := Except.error ApiError.failure,
          createAppointment := Except.ok () }).toasts ∧
    Toast.error "Erreur lors de la création du rendez-vous" ∈
      (handleSubmit "d1"
        { date := some ⟨2025, 10, 7⟩, time := "08:00", serviceId := "s1",
          patientName := "Alice", patientPhone := "0600000000",
          patientEmail := "", notes := "", isLoading := false }
        { getPatients := Except.ok
            [{ id := "p1", name := "Alice", phone := "0600000000" }],
          createPatient := Except.ok none,
          createAppointment := Except.error ApiError.failure }).toasts ∧
    Toast.error "Erreur lors de la création du rendez-vous" ∈
      (handleSubmit "d1"
        { date := some ⟨2025, 10, 7⟩, time := "08:00", serviceId := "s1",
          patientName := "Alice", patientPhone := "0600000000",
          patientEmail := "", notes := "", isLoading := false }
        { getPatients := Except.ok [],
          createPatient :=
            Except.ok (some { id := "p1", name := "Alice", phone := "0600000000" }),
          createAppointment := Except.error ApiError.failure }).toasts :=
  ⟨c5_amended_error_surfacing.1 ApiError.failure,
   (c5_amended_error_surfacing.2.1 ⟨2025, 10, 7⟩ { id := "d1", services := [] }
      ApiError.failure).1,
   c5_amended_error_surfacing.2.2.1 { id := "d1", services := [] } ApiError.failure,
   c5_amended_error_surfacing.2.2.2.2.1 "d1"
     { date := some ⟨2025, 10, 7⟩, time := "08:00", serviceId := "s1",
       patientName := "Alice", patientPhone := "0600000000",
       patientEmail := "", notes := "", isLoading := false }
     { getPatients := Except.error ApiError.failure,
       createPatient := Except.ok none,
       createAppointment := Except.ok () }
     ApiError.failure (by decide) rfl,
   c5_amended_error_surfacing.2.2.2.2.2.1 "d1"
     { date := some ⟨2025, 10, 7⟩, time := "08:00", serviceId := "s1",
       patientName := "Alice", patientPhone := "0600000000",
       patientEmail := "", notes := "", isLoading := false }
     { getPatients := Except.ok [],
       createPatient := Except.error ApiError.failure,
       createAppointment := Except.ok () }
     [] ApiError.failure (by decide) rfl rfl rfl,
   c5_amended_error_surfacing.2.2.2.2.2.2.1 "d1"
     { date := some ⟨2025, 10, 7⟩, time := "08:00", serviceId := "s1",
       patientName := "Alice", patientPhone := "0600000000",
       patientEmail := "", notes := "", isLoading := false }
     { getPatients := Except.ok
         [{ id := "p1", name := "Alice", phone := "0600000000" }],
       createPatient := Except.ok none,
       createAppointment := Except.error ApiError.failure }
     [{ id := "p1", name := "Alice", phone := "0600000000" }]
     { id := "p1", name := "Alice", phone := "0600000000" }
     ApiError.failure (by decide) rfl rfl rfl,
   c5_amended_error_surfacing.2.2.2.2.2.2.2 "d1"
     { date := some ⟨2025, 10, 7⟩, time := "08:00", serviceId := "s1",
       patientName := "Alice", patientPhone := "0600000000",
       patientEmail := "", notes := "", isLoading := false }
     { getPatients := Except.ok [],
       createPatient :=
         Except.ok (some { id := "p1", name := "Alice", phone := "0600000000" }),
       createAppointment := Except.error ApiError.failure }
     [] { id := "p1", name := "Alice", phone := "0600000000" }
     ApiError.failure (by decide) rfl rfl rfl rfl⟩

/-! ### Claim C6 -/

theorem statusRewritten_optimistic (id st : String) (l : List Appointment) :
    StatusRewritten id st l (optimisticStatus id st l) := by
  refine ⟨by simp [optimisticStatus], ?_⟩
  intro i h h'
  have hget : (optimisticStatus id st l).get ⟨i, h'⟩ =
      (fun apt => if apt.id = id then { apt with status := st } else apt)
        (l.get ⟨i, h⟩) := by
    simp [optimisticStatus]
  constructor
  · intro hid
    rw [hget]
    exact if_pos hid
  · intro hid
    rw [hget]
    exact if_neg hid

/-- Claim C6: `handleStatusChange` first rewrites only the status of the
matching appointment in both lists, then calls `updateAppointment`; on
success it shows a success toast and reloads, on failure it reloads and shows
an error toast — the only rollback being that full reload. -/
theorem c6_optimistic_update_then_reload :
    ∀ (dent : Dentist) (appts fappts : List Appointment) (id st : String)
      (u : Except ApiError Unit)
      (r : Except ApiError (List Appointment × List Patient)),
      StatusRewritten id st appts (optimisticStatus id st appts) ∧
      StatusRewritten id st fappts (optimisticStatus id st fappts) ∧
      (u = Except.ok () →
        handleStatusChangeTrace (some dent) appts fappts id st u r =
          [PageEvent.setAppointments (optimisticStatus id st appts),
           PageEvent.setFilteredAppointments (optimisticStatus id st fappts),
           PageEvent.call (ApiCall.updateAppointment id st),
           PageEvent.toastSuccess "Statut mis à jour"] ++
          loadAppointmentsTrace (some dent) r) ∧
      (∀ e, u = Except.error e →
        handleStatusChangeTrace (some dent) appts fappts id st u r =
          [PageEvent.setAppointments (optimisticStatus id st appts),
           PageEvent.setFilteredAppointments (optimisticStatus id st fappts),
           PageEvent.call (ApiCall.updateAppointment id st)] ++
          loadAppointmentsTrace (some dent) r ++
          [PageEvent.toastError "Erreur lors de la mise à jour"]) := by
  intro dent appts fappts id st u r
  refine ⟨statusRewritten_optimistic id st appts,
          statusRewritten_optimistic id st fappts, ?_, ?_⟩
  · intro hu
    subst hu
    simp [handleStatusChangeTrace]
  · intro e hu
    subst hu
    simp [handleStatusChangeTrace]

/-- Witness for C6 at a concrete failing update. -/
theorem c6_witness :
    handleStatusChangeTrace (some { id := "d1", services := [] })
        [{ id := "a1", patientId := "p1", serviceId := "s1", date := 0,
           time := "08:00", status := "pending", notes := "" }] []
        "a1" "confirmed" (Except.error ApiError.failure)
        (Except.error ApiError.failure) =
      [PageEvent.setAppointments
         (optimisticStatus "a1" "confirmed"
           [{ id := "a1", patientId := "p1", serviceId := "s1", date := 0,
              time := "08:00", status := "pending", notes := "" }]),
       PageEvent.setFilteredAppointments (optimisticStatus "a1" "confirmed" []),
       PageEvent.call (ApiCall.updateAppointment "a1" "confirmed")] ++
      loadAppointmentsTrace (some { id := "d1", services := [] })
        (Except.error ApiError.failure) ++
      [PageEvent.toastError "Erreur lors de la mise à jour"] :=
  ((c6_optimistic_update_then_reload { id := "d1", services := [] }
      [{ id := "a1", patientId := "p1", serviceId := "s1", date := 0,
         time := "08:00", status := "pending", notes := "" }] []
      "a1" "confirmed" (Except.error ApiError.failure)
      (Except.error ApiError.failure)).2.2.2 ApiError.failure rfl)

/-! ### Claim C7 -/

theorem codesLe_total : ∀ a b : List Nat, codesLe a b = true ∨ codesLe b a = true := by
  intro a
  induction a with
  | nil => intro b; left; rfl
  | cons x xs ih =>
      intro b
      cases b with
      | nil => right; rfl
      | cons y ys =>
          by_cases h1 : x < y
          · left; simp [codesLe, h1]
          · by_cases h2 : y < x
            · right; simp [codesLe, h2]
            · rcases ih ys with h | h
              · left; simp [codesLe, h1, h2, h]
              · right; simp [codesLe, h1, h2, h]

theorem codesLe_trans :
    ∀ a b c : List Nat, codesLe a b = true → codesLe b c = true →
      codesLe a c = true := by
  intro a
  induction a with
  | nil => intro b c h1 h2; rfl
  | cons x xs ih =>
      intro b c h1 h2
      cases b with
      | nil => simp [codesLe] at h1
      | cons y ys =>
          cases c with
          | nil => simp [codesLe] at h2
          | cons z zs =>
              by_cases hxy : x < y
              · by_cases hyz : y < z
                · simp [codesLe, show x < z by omega]
                · by_cases hzy : z < y
                  · simp [codesLe, hyz, hzy] at h2
                  · simp [codesLe, show x < z by omega]
              · by_cases hyx : y < x
                · simp [codesLe, hxy, hyx] at h1
                · by_cases hyz : y < z
                  · simp [codesLe, show x < z by omega]
                  · by_cases hzy : z < y
                    · simp [codesLe, hyz, hzy] at h2
                    · have h1' : codesLe xs ys = true := by
                        simpa [codesLe, hxy, hyx] using h1
                      have h2' : codesLe ys zs = true := by
                        simpa [codesLe, hyz, hzy] using h2
                      simp [codesLe, show ¬ x < z by omega,
                            show ¬ z < x by omega, ih ys zs h1' h2']

theorem strLe_trans (s t u : String) (h1 : strLe s t = true)
    (h2 : strLe t u = true) : strLe s u = true :=
  codesLe_trans _ _ _ h1 h2

theorem aptLe_trans :
    ∀ a b c : Appointment, aptLe a b = true → aptLe b c = true →
      aptLe a c = true := by
  intro a b c h1 h2
  unfold aptLe at h1 h2 ⊢
  by_cases hab : a.date = b.date <;> by_cases hbc : b.date = c.date
  · rw [if_pos hab] at h1
    rw [if_pos hbc] at h2
    rw [if_pos (hab.trans hbc)]
    exact strLe_trans _ _ _ h1 h2
  · rw [if_pos hab] at h1
    rw [if_neg hbc] at h2
    have hlt : b.date < c.date := of_decide_eq_true h2
    rw [if_neg (show ¬ a.date = c.date by omega)]
    exact decide_eq_true (show a.date < c.date by omega)
  · rw [if_neg hab] at h1
    rw [if_pos hbc] at h2
    have hlt : a.date < b.date := of_decide_eq_true h1
    rw [if_neg (show ¬ a.date = c.date by omega)]
    exact decide_eq_true (show a.date < c.date by omega)
  · rw [if_neg hab] at h1
    rw [if_neg hbc] at h2
    have hl1 : a.date < b.date := of_decide_eq_true h1
    have hl2 : b.date < c.date := of_decide_eq_true h2
    rw [if_neg (show ¬ a.date = c.date by omega)]
    exact decide_eq_true (show a.date < c.date by omega)

theorem aptLe_total : ∀ a b : Appointment, (aptLe a b || aptLe b a) = true := by
  intro a b
  unfold aptLe
  by_cases hab : a.date = b.date
  · rw [if_pos hab, if_pos hab.symm]
    rcases codesLe_total (a.time.data.map Char.toNat) (b.time.data.map Char.toNat)
        with h | h
    · simp [strLe, h]
    · simp [strLe, h]
  · rw [if_neg hab, if_neg (fun hh => hab hh.symm)]
    rcases lt_or_gt_of_ne (hab : a.date ≠ b.date) with h | h
    · simp [h]
    · simp [h]

theorem aptLe_iff (a b : Appointment) :
    aptLe a b = true ↔
      (a.date < b.date ∨ (a.date = b.date ∧ strLe a.time b.time = true)) := by
  unfold aptLe
  by_cases hab : a.date = b.date
  · rw [if_pos hab]
    constructor
    · intro h; exact Or.inr ⟨hab, h⟩
    · rintro (h | ⟨_, h⟩)
      · omega
      · exact h
  · rw [if_neg hab]
    simp [hab]

theorem mergeSort_pairwise_key (l2 : List Appointment) :
    List.Pairwise
      (fun a b : Appointment =>
        a.date < b.date ∨ (a.date = b.date ∧ strLe a.time b.time = true))
      (l2.mergeSort aptLe) := by
  have hs := @List.sorted_mergeSort Appointment aptLe aptLe_trans aptLe_total l2
  exact hs.imp (fun h => (aptLe_iff _ _).1 h)

/-- Claim C7: `applyFilter` returns exactly the appointments selected by the
filter ('today' / 'upcoming' / 'past' by date, 'all' keeps everything),
sorted ascending by date with ties broken by comparing the time strings, and
with filter 'all' the result is a permutation of the input. -/
theorem c7_applyFilter_sorts_and_filters :
    ∀ (now : Int) (filter : FilterType) (l : List Appointment),
      List.Pairwise
        (fun a b : Appointment =>
          a.date < b.date ∨ (a.date = b.date ∧ strLe a.time b.time = true))
        (applyFilter now filter l) ∧
      (applyFilter now filter l).Perm (l.filter (filterPred filter now)) ∧
      (applyFilter now FilterType.all l).Perm l := by
  intro now filter l
  refine ⟨?_, ?_, ?_⟩
  · cases filter <;> exact mergeSort_pairwise_key _
  · cases filter with
    | all =>
        show (l.mergeSort aptLe).Perm (l.filter (fun _ => true))
        rw [List.filter_true]
        exact List.mergeSort_perm l aptLe
    | today => exact List.mergeSort_perm _ aptLe
    | upcoming => exact List.mergeSort_perm _ aptLe
    | past => exact List.mergeSort_perm _ aptLe
  · exact List.mergeSort_perm l aptLe

/-! ### Claim C8 helper lemmas: calendar arithmetic -/

theorem daysInMonth_ge (y : Int) (m : Nat) : 28 ≤ daysInMonth y m := by
  unfold daysInMonth
  split_ifs <;> omega

theorem daysInMonth_le (y : Int) (m : Nat) : daysInMonth y m ≤ 31 := by
  unfold daysInMonth
  split_ifs <;> omega

theorem daysInMonth_twelve (y : Int) : daysInMonth y 12 = 31 := by
  norm_num [daysInMonth]

theorem getDay_lt (d : Date) : getDay d < 7 := by
  unfold getDay
  have h1 := Int.emod_nonneg (daysFromCivil d + 4) (by norm_num : (7:Int) ≠ 0)
  have h2 := Int.emod_lt_of_pos (daysFromCivil d + 4) (by norm_num : (0:Int) < 7)
  omega

theorem Date.ext' {a b : Date} (hy : a.year = b.year) (hm : a.month = b.month)
    (hd : a.day = b.day) : a = b := by
  cases a; cases b; simp_all

theorem nextDay_valid {d : Date} (h : ValidDate d) : ValidDate (nextDay d) := by
  obtain ⟨h1, h2, h3, h4⟩ := h
  have g1 := daysInMonth_ge d.year (d.month + 1)
  have g2 := daysInMonth_ge (d.year + 1) 1
  unfold nextDay
  split_ifs with hlt hm <;> refine ⟨?_, ?_, ?_, ?_⟩ <;> (try dsimp only) <;> omega

theorem prevDay_valid {d : Date} (h : ValidDate d) : ValidDate (prevDay d) := by
  obtain ⟨h1, h2, h3, h4⟩ := h
  have g1 := daysInMonth_ge d.year (d.month - 1)
  have g3 := daysInMonth_twelve (d.year - 1)
  unfold prevDay
  split_ifs with hd hm <;> refine ⟨?_, ?_, ?_, ?_⟩ <;> (try dsimp only) <;> omega

theorem prevDay_iterate_valid (n : Nat) {d : Date} (h : ValidDate d) :
    ValidDate (prevDay^[n] d) := by
  induction n with
  | zero => simpa using h
  | succ m ih => rw [Function.iterate_succ_apply']; exact prevDay_valid ih

theorem nextDay_prevDay {d : Date} (h : ValidDate d) : nextDay (prevDay d) = d := by
  obtain ⟨h1, h2, h3, h4⟩ := h
  have g0 := daysInMonth_ge d.year d.month
  have g1 := daysInMonth_ge d.year (d.month - 1)
  have g12 := daysInMonth_twelve (d.year - 1)
  unfold prevDay nextDay
  split_ifs <;> (apply Date.ext' <;> (try dsimp only at *) <;> omega)

theorem addDays_natCast (d : Date) (n : Nat) : addDays d (n : Int) = nextDay^[n] d := by
  unfold addDays
  rw [if_pos (show (0:Int) ≤ (n:Int) by omega)]
  have h : ((n : Int)).toNat = n := by omega
  rw [h]

theorem addDays_zero (d : Date) : addDays d 0 = d := by
  unfold addDays
  rw [if_pos (le_refl 0)]
  simp

theorem addDays_neg_natCast (d : Date) (n : Nat) :
    addDays d (-(n : Int)) = prevDay^[n] d := by
  unfold addDays
  by_cases h : 0 ≤ -(n:Int)
  · rw [if_pos h]
    have hn : n = 0 := by omega
    subst hn
    simp
  · rw [if_neg h]
    have h2 : (-(-(n:Int))).toNat = n := by omega
    rw [h2]

theorem addDays_succ {d : Date} (h : ValidDate d) (k : Int) :
    addDays d (k + 1) = nextDay (addDays d k) := by
  rcases le_or_lt 0 k with hk | hk
  · unfold addDays
    rw [if_pos (show (0:Int) ≤ k + 1 by omega), if_pos hk]
    have h1 : (k+1).toNat = k.toNat + 1 := by omega
    rw [h1, Function.iterate_succ_apply']
  · rcases eq_or_lt_of_le (show k + 1 ≤ 0 by omega) with he | hl
    · unfold addDays
      rw [if_pos (le_of_eq he.symm), if_neg (by omega)]
      have h1 : (k+1).toNat = 0 := by omega
      have h2 : (-k).toNat = 1 := by omega
      rw [h1, h2]
      show d = nextDay (prevDay^[1] d)
      rw [Function.iterate_one]
      exact (nextDay_prevDay h).symm
    · unfold addDays
      rw [if_neg (by omega), if_neg (by omega)]
      have h1 : (-k).toNat = (-(k+1)).toNat + 1 := by omega
      rw [h1, Function.iterate_succ_apply']
      exact (nextDay_prevDay (prevDay_iterate_valid _ h)).symm

theorem nextDay_iterate_day (y : Int) (m : Nat) (day n : Nat)
    (h : day + n ≤ daysInMonth y m) :
    nextDay^[n] (⟨y, m, day⟩ : Date) = ⟨y, m, day + n⟩ := by
  induction n generalizing day with
  | zero => simp
  | succ k ih =>
      rw [Function.iterate_succ_apply]
      have hstep : nextDay (⟨y, m, day⟩ : Date) = ⟨y, m, day + 1⟩ := by
        unfold nextDay
        rw [if_pos (show (⟨y, m, day⟩ : Date).day <
          daysInMonth (⟨y, m, day⟩ : Date).year (⟨y, m, day⟩ : Date).month by
            dsimp only; omega)]
      rw [hstep, ih (day + 1) (by omega)]
      apply Date.ext' <;> dsimp only <;> omega

theorem prevDay_iterate_day (y : Int) (m : Nat) (day n : Nat) (h : n < day) :
    prevDay^[n] (⟨y, m, day⟩ : Date) = ⟨y, m, day - n⟩ := by
  induction n generalizing day with
  | zero => simp
  | succ k ih =>
      rw [Function.iterate_succ_apply]
      have hstep : prevDay (⟨y, m, day⟩ : Date) = ⟨y, m, day - 1⟩ := by
        unfold prevDay
        rw [if_pos (show 1 < (⟨y, m, day⟩ : Date).day by dsimp only; omega)]
      rw [hstep, ih (day - 1) (by omega)]
      apply Date.ext' <;> dsimp only <;> omega

theorem startOfMonth_valid {c : Date} (h : ValidDate c) :
    ValidDate (startOfMonth c) := by
  obtain ⟨h1, h2, h3, h4⟩ := h
  have g := daysInMonth_ge c.year c.month
  unfold startOfMonth
  refine ⟨?_, ?_, ?_, ?_⟩ <;> (try dsimp only) <;> omega

theorem endOfMonth_valid {c : Date} (h : ValidDate c) :
    ValidDate (endOfMonth c) := by
  obtain ⟨h1, h2, h3, h4⟩ := h
  have g := daysInMonth_ge c.year c.month
  unfold endOfMonth
  refine ⟨?_, ?_, ?_, ?_⟩ <;> (try dsimp only) <;> omega

theorem calendarDays_eq {c : Date} (h : ValidDate c) :
    calendarDays c = (List.range (daysInMonth c.year c.month)).map
      (fun i : Nat => (⟨c.year, c.month, i + 1⟩ : Date)) := by
  unfold calendarDays
  apply List.map_congr_left
  intro i hi
  rw [List.mem_range] at hi
  rw [addDays_natCast]
  rw [show startOfMonth c = (⟨c.year, c.month, 1⟩ : Date) from rfl]
  rw [nextDay_iterate_day c.year c.month 1 i (by omega)]
  apply Date.ext' <;> dsimp only <;> omega

theorem prevMonthDays_eq {c : Date} :
    prevMonthDays c = (List.range (firstDayOfWeek c)).map
      (fun i : Nat => prevDay^[firstDayOfWeek c - i] (startOfMonth c)) := by
  unfold prevMonthDays
  apply List.map_congr_left
  intro i hi
  rw [List.mem_range] at hi
  rw [show -((firstDayOfWeek c : Int) - (i : Int)) =
      -(((firstDayOfWeek c - i : Nat) : Int)) by omega]
  rw [addDays_neg_natCast]

theorem nextMonthDays_eq {c : Date} :
    nextMonthDays c = (List.range (remainingDays c)).map
      (fun i : Nat => nextDay^[i + 1] (endOfMonth c)) := by
  unfold nextMonthDays
  apply List.map_congr_left
  intro i hi
  rw [show ((i : Nat) : Int) + 1 = (((i + 1 : Nat)) : Int) by omega]
  rw [addDays_natCast]

theorem count_calendarDays {c : Date} (h : ValidDate c) (k : Nat) (hk1 : 1 ≤ k)
    (hk2 : k ≤ daysInMonth c.year c.month) :
    (calendarDays c).count (⟨c.year, c.month, k⟩ : Date) = 1 := by
  rw [calendarDays_eq h]
  apply List.count_eq_one_of_mem
  · apply List.Nodup.map
    · intro a b hab
      have hd := congrArg Date.day hab
      dsimp only at hd
      omega
    · exact List.nodup_range _
  · rw [List.mem_map]
    refine ⟨k - 1, ?_, ?_⟩
    · rw [List.mem_range]; omega
    · apply Date.ext' <;> dsimp only <;> omega

theorem prevDay_startOfMonth_big {c : Date} (hm : 1 < c.month) :
    prevDay (startOfMonth c) =
      ⟨c.year, c.month - 1, daysInMonth c.year (c.month - 1)⟩ := by
  show prevDay (⟨c.year, c.month, 1⟩ : Date) = _
  unfold prevDay
  rw [if_neg (show ¬ 1 < (⟨c.year, c.month, 1⟩ : Date).day by dsimp only; omega)]
  rw [if_pos (show 1 < (⟨c.year, c.month, 1⟩ : Date).month by dsimp only; omega)]

theorem prevDay_startOfMonth_jan {c : Date} (hm : c.month = 1) :
    prevDay (startOfMonth c) = ⟨c.year - 1, 12, 31⟩ := by
  show prevDay (⟨c.year, c.month, 1⟩ : Date) = _
  unfold prevDay
  rw [if_neg (show ¬ 1 < (⟨c.year, c.month, 1⟩ : Date).day by dsimp only; omega)]
  rw [if_neg (show ¬ 1 < (⟨c.year, c.month, 1⟩ : Date).month by dsimp only; omega)]

theorem count_prevMonthDays {c : Date} (h : ValidDate c) (k : Nat) :
    (prevMonthDays c).count (⟨c.year, c.month, k⟩ : Date) = 0 := by
  rw [List.count_eq_zero]
  intro hmem
  rw [prevMonthDays_eq, List.mem_map] at hmem
  obtain ⟨i, hi, hEq⟩ := hmem
  rw [List.mem_range] at hi
  obtain ⟨h1, h2, h3, h4⟩ := h
  have hf : firstDayOfWeek c < 7 := getDay_lt _
  have hsplit : prevDay^[firstDayOfWeek c - i] (startOfMonth c) =
      prevDay^[firstDayOfWeek c - i - 1] (prevDay (startOfMonth c)) := by
    conv_lhs => rw [show firstDayOfWeek c - i = (firstDayOfWeek c - i - 1) + 1 by omega]
    rw [Function.iterate_succ_apply]
  by_cases hm : 1 < c.month
  · have g1 := daysInMonth_ge c.year (c.month - 1)
    rw [hsplit, prevDay_startOfMonth_big hm,
        prevDay_iterate_day _ _ _ _ (by omega)] at hEq
    have hmm := congrArg Date.month hEq
    dsimp only at hmm
    omega
  · have hm1 : c.month = 1 := by omega
    rw [hsplit, prevDay_startOfMonth_jan hm1,
        prevDay_iterate_day _ _ _ _ (by omega)] at hEq
    have hyy := congrArg Date.year hEq
    dsimp only at hyy
    omega

theorem nextDay_endOfMonth_small {c : Date} (hm : c.month < 12) :
    nextDay (endOfMonth c) = ⟨c.year, c.month + 1, 1⟩ := by
  show nextDay (⟨c.year, c.month, daysInMonth c.year c.month⟩ : Date) = _
  unfold nextDay
  rw [if_neg (show ¬ (⟨c.year, c.month, daysInMonth c.year c.month⟩ : Date).day <
      daysInMonth (⟨c.year, c.month, daysInMonth c.year c.month⟩ : Date).year
        (⟨c.year, c.month, daysInMonth c.year c.month⟩ : Date).month by
      dsimp only; omega)]
  rw [if_pos (show (⟨c.year, c.month, daysInMonth c.year c.month⟩ : Date).month < 12 by
      dsimp only; omega)]

theorem nextDay_endOfMonth_dec {c : Date} (hm : c.month = 12) :
    nextDay (endOfMonth c) = ⟨c.year + 1, 1, 1⟩ := by
  show nextDay (⟨c.year, c.month, daysInMonth c.year c.month⟩ : Date) = _
  unfold nextDay
  rw [if_neg (show ¬ (⟨c.year, c.month, daysInMonth c.year c.month⟩ : Date).day <
      daysInMonth (⟨c.year, c.month, daysInMonth c.year c.month⟩ : Date).year
        (⟨c.year, c.month, daysInMonth c.year c.month⟩ : Date).month by
      dsimp only; omega)]
  rw [if_neg (show ¬ (⟨c.year, c.month, daysInMonth c.year c.month⟩ : Date).month < 12 by
      dsimp only; omega)]

theorem count_nextMonthDays {c : Date} (h : ValidDate c) (k : Nat) :
    (nextMonthDays c).count (⟨c.year, c.month, k⟩ : Date) = 0 := by
  rw [List.count_eq_zero]
  intro hmem
  rw [nextMonthDays_eq, List.mem_map] at hmem
  obtain ⟨i, hi, hEq⟩ := hmem
  rw [List.mem_range] at hi
  obtain ⟨h1, h2, h3, h4⟩ := h
  have hN1 := daysInMonth_ge c.year c.month
  have hr : remainingDays c ≤ 14 := by
    unfold remainingDays
    omega
  have hsplit : nextDay^[i + 1] (endOfMonth c) =
      nextDay^[i] (nextDay (endOfMonth c)) := by
    rw [Function.iterate_succ_apply]
  by_cases hm : c.month < 12
  · have g1 := daysInMonth_ge c.year (c.month + 1)
    rw [hsplit, nextDay_endOfMonth_small hm,
        nextDay_iterate_day _ _ _ _ (by omega)] at hEq
    have hmm := congrArg Date.month hEq
    dsimp only at hmm
    omega
  · have hm12 : c.month = 12 := by omega
    have g1 := daysInMonth_ge (c.year + 1) 1
    rw [hsplit, nextDay_endOfMonth_dec hm12,
        nextDay_iterate_day _ _ _ _ (by omega)] at hEq
    have hyy := congrArg Date.year hEq
    dsimp only at hyy
    omega

theorem gridDays_length {c : Date} (h : ValidDate c) : (gridDays c).length = 42 := by
  have hf := getDay_lt (startOfMonth c)
  have hN1 := daysInMonth_ge c.year c.month
  have hN2 := daysInMonth_le c.year c.month
  unfold gridDays prevMonthDays calendarDays nextMonthDays remainingDays firstDayOfWeek
  simp only [List.length_append, List.length_map, List.length_range]
  omega

theorem gridDays_count {c : Date} (h : ValidDate c) (k : Nat) (hk1 : 1 ≤ k)
    (hk2 : k ≤ daysInMonth c.year c.month) :
    (gridDays c).count (⟨c.year, c.month, k⟩ : Date) = 1 := by
  unfold gridDays
  rw [List.count_append, List.count_append]
  rw [count_prevMonthDays h, count_calendarDays h k hk1 hk2, count_nextMonthDays h]

theorem chain'_nextDay_map_range (g : Nat → Date) (n : Nat)
    (hstep : ∀ i, i + 1 < n → g (i + 1) = nextDay (g i)) :
    List.Chain' (fun a b : Date => b = nextDay a) ((List.range n).map g) := by
  rw [List.chain'_map]
  cases n with
  | zero => simp
  | succ m =>
      rw [List.chain'_range_succ]
      intro i hi
      exact hstep i (by omega)

theorem head?_map_range (g : Nat → Date) (n : Nat) (hn : 0 < n) :
    ((List.range n).map g).head? = some (g 0) := by
  cases n with
  | zero => omega
  | succ m =>
      rw [List.range_succ_eq_map]
      simp

theorem getLast?_map_range (g : Nat → Date) (n : Nat) (hn : 0 < n) :
    ((List.range n).map g).getLast? = some (g (n - 1)) := by
  cases n with
  | zero => omega
  | succ m =>
      rw [List.range_succ, List.map_append, List.map_cons, List.map_nil,
          List.getLast?_concat]
      simp

theorem chain'_prevMonthDays {c : Date} (h : ValidDate c) :
    List.Chain' (fun a b : Date => b = nextDay a) (prevMonthDays c) := by
  have hs := startOfMonth_valid h
  unfold prevMonthDays
  apply chain'_nextDay_map_range
  intro i hi
  dsimp only
  rw [show -((firstDayOfWeek c : Int) - ((i + 1 : Nat) : Int)) =
      (-((firstDayOfWeek c : Int) - ((i : Nat) : Int))) + 1 by push_cast; ring]
  exact addDays_succ hs _

theorem chain'_calendarDays {c : Date} (h : ValidDate c) :
    List.Chain' (fun a b : Date => b = nextDay a) (calendarDays c) := by
  have hs := startOfMonth_valid h
  unfold calendarDays
  apply chain'_nextDay_map_range
  intro i hi
  dsimp only
  rw [show (((i + 1 : Nat)) : Int) = ((i : Nat) : Int) + 1 by push_cast; ring]
  exact addDays_succ hs _

theorem chain'_nextMonthDays {c : Date} (h : ValidDate c) :
    List.Chain' (fun a b : Date => b = nextDay a) (nextMonthDays c) := by
  have he := endOfMonth_valid h
  unfold nextMonthDays
  apply chain'_nextDay_map_range
  intro i hi
  dsimp only
  rw [show (((i + 1 : Nat)) : Int) + 1 = (((i : Nat) : Int) + 1) + 1 by push_cast; ring]
  exact addDays_succ he _

theorem endOfMonth_as_addDays {c : Date} (h : ValidDate c) :
    addDays (startOfMonth c) (((daysInMonth c.year c.month - 1 : Nat)) : Int) =
      endOfMonth c := by
  have hN1 := daysInMonth_ge c.year c.month
  rw [addDays_natCast]
  rw [show startOfMonth c = (⟨c.year, c.month, 1⟩ : Date) from rfl]
  rw [nextDay_iterate_day c.year c.month 1 _ (by omega)]
  apply Date.ext' <;> dsimp only [endOfMonth] <;> omega

theorem gridDays_chain {c : Date} (h : ValidDate c) :
    List.Chain' (fun a b : Date => b = nextDay a) (gridDays c) := by
  have hs := startOfMonth_valid h
  have he := endOfMonth_valid h
  have hN1 := daysInMonth_ge c.year c.month
  unfold gridDays
  rw [List.chain'_append, List.chain'_append]
  refine ⟨⟨chain'_prevMonthDays h, chain'_calendarDays h, ?_⟩,
          chain'_nextMonthDays h, ?_⟩
  · -- junction: last of prevMonthDays steps to head of calendarDays
    intro x hx y hy
    rcases Nat.eq_zero_or_pos (firstDayOfWeek c) with hF | hF
    · unfold prevMonthDays at hx
      rw [hF] at hx
      simp at hx
    · unfold prevMonthDays at hx
      rw [getLast?_map_range _ _ hF] at hx
      simp only [Option.mem_def, Option.some.injEq] at hx
      unfold calendarDays at hy
      rw [head?_map_range _ _ (by omega)] at hy
      simp only [Option.mem_def, Option.some.injEq] at hy
      subst hx
      subst hy
      -- goal: addDays s 0 = nextDay (addDays s (-1))
      have h0 := addDays_succ hs (-1)
      rw [show (-1 : Int) + 1 = 0 by norm_num, addDays_zero] at h0
      rw [show (((0 : Nat)) : Int) = (0 : Int) from rfl, addDays_zero]
      rw [show -((firstDayOfWeek c : Int) -
          (((firstDayOfWeek c - 1 : Nat)) : Int)) = (-1 : Int) by omega]
      exact h0
  · -- junction: last of calendarDays steps to head of nextMonthDays
    intro x hx y hy
    rw [List.getLast?_append] at hx
    unfold calendarDays at hx
    rw [getLast?_map_range _ _ (by omega : 0 < daysInMonth c.year c.month)] at hx
    simp only [Option.or_some, Option.mem_def, Option.some.injEq] at hx
    unfold nextMonthDays at hy
    rcases Nat.eq_zero_or_pos (remainingDays c) with hr | hr
    · rw [hr] at hy
      simp at hy
    · rw [head?_map_range _ _ hr] at hy
      simp only [Option.mem_def, Option.some.injEq] at hy
      subst hx
      subst hy
      -- goal: addDays e (0 + 1) = nextDay (addDays s (N - 1))
      rw [endOfMonth_as_addDays h]
      rw [show (((0 : Nat)) : Int) + 1 = (0 : Int) + 1 from rfl]
      rw [addDays_succ he 0, addDays_zero]

theorem gridDays_head {c : Date} (h : ValidDate c) :
    (gridDays c).head? =
      some (addDays (startOfMonth c) (-(firstDayOfWeek c : Int))) := by
  have hN1 := daysInMonth_ge c.year c.month
  unfold gridDays
  rw [List.head?_append, List.head?_append]
  rcases Nat.eq_zero_or_pos (firstDayOfWeek c) with hF | hF
  · unfold prevMonthDays calendarDays
    rw [hF]
    rw [head?_map_range _ _ (show 0 < daysInMonth c.year c.month by omega)]
    show some (addDays (startOfMonth c) (((0 : Nat)) : Int)) =
      some (addDays (startOfMonth c) (-(((0 : Nat)) : Int)))
    norm_num [addDays_zero]
  · unfold prevMonthDays
    rw [head?_map_range _ _ hF]
    show some (addDays (startOfMonth c)
        (-((firstDayOfWeek c : Int) - (((0 : Nat)) : Int)))) =
      some (addDays (startOfMonth c) (-(firstDayOfWeek c : Int)))
    rw [show -((firstDayOfWeek c : Int) - (((0 : Nat)) : Int)) =
        -(firstDayOfWeek c : Int) by push_cast; ring]

/-! ### Claim C8 -/

/-- Claim C8: for every valid `currentMonth`, the computed grid has exactly
42 days, consecutive in order (each entry is the day after its predecessor),
starting `getDay (startOfMonth currentMonth)` days before the first of the
month, and every day of the displayed month appears exactly once. -/
theorem c8_gridDays :
    ∀ c : Date, ValidDate c →
      (gridDays c).length = 42 ∧
      List.Chain' (fun a b : Date => b = nextDay a) (gridDays c) ∧
      (gridDays c).head? =
        some (addDays (startOfMonth c) (-(firstDayOfWeek c : Int))) ∧
      (∀ k : Nat, 1 ≤ k → k ≤ daysInMonth c.year c.month →
        (gridDays c).count (⟨c.year, c.month, k⟩ : Date) = 1) := by
  intro c h
  exact ⟨gridDays_length h, gridDays_chain h, gridDays_head h,
         fun k hk1 hk2 => gridDays_count h k hk1 hk2⟩

/-- Witness for C8 on October 2025. -/
theorem c8_witness :
    ValidDate ⟨2025, 10, 11⟩ ∧
    (gridDays ⟨2025, 10, 11⟩).length = 42 ∧
    (gridDays ⟨2025, 10, 11⟩).head? =
      some (addDays (startOfMonth ⟨2025, 10, 11⟩)
        (-(firstDayOfWeek ⟨2025, 10, 11⟩ : Int))) ∧
    (gridDays ⟨2025, 10, 11⟩).count (⟨2025, 10, 15⟩ : Date) = 1 := by
  have h := c8_gridDays ⟨2025, 10, 11⟩ (by decide)
  exact ⟨by decide, h.1, h.2.2.1, h.2.2.2 15 (by decide) (by decide)⟩
